import Mathlib

/-!
Verification of the journal-bot core (src/bot.py): the P/L computation
`calc_pl` and the row construction `append_journal_row`, shallowly embedded
in Lean.  Python strings are modelled as `List Char`; Python `float` prices
are modelled as `ℚ` (exact arithmetic over the numbers the spec reasons
about); an absent value (Python `None`) is `Option.none`; a raised
`ValueError` is an `Except.error` carrying `PLError.invalidArgument`.
The spreadsheet append (`ws.append_row`) is a side effect outside the core:
`append_journal_row` here returns the row of 9 cells that the source hands
to the store; the timestamp produced by the clock collaborator is passed
in as the `ts` argument.
-/

namespace JournalBot

/-- Python string, modelled as its list of characters. -/
abbrev PyStr := List Char

/-- Python `str.lower()` (ASCII range, which covers all inputs the spec
mentions). -/
def pyLower (s : PyStr) : PyStr := s.map Char.toLower

/-- Python `str.upper()` (ASCII range). -/
def pyUpper (s : PyStr) : PyStr := s.map Char.toUpper

/-- Python `str.strip()`: remove leading and trailing whitespace. -/
def pyStrip (s : PyStr) : PyStr :=
  ((s.dropWhile Char.isWhitespace).reverse.dropWhile Char.isWhitespace).reverse

/-- The string constant `"long"`. -/
def strLong : PyStr := ['l', 'o', 'n', 'g']

/-- The string constant `"short"`. -/
def strShort : PyStr := ['s', 'h', 'o', 'r', 't']

/-- The string constant `"neutral"`, an invalid position. -/
def strNeutral : PyStr := ['n', 'e', 'u', 't', 'r', 'a', 'l']

/-- The example string `" Long "` from the spec. -/
def strLongPadded : PyStr := [' ', 'L', 'o', 'n', 'g', ' ']

/-- The example string `"LONG"` from the spec. -/
def strLONG : PyStr := ['L', 'O', 'N', 'G']

/-- The example ticker `"  emtk "` from the spec. -/
def strEmtkPadded : PyStr := [' ', ' ', 'e', 'm', 't', 'k', ' ']

/-- The example ticker result `"EMTK"` from the spec. -/
def strEMTK : PyStr := ['E', 'M', 'T', 'K']

/-- The single error kind of the core: the Python ValueError raised for a bad
position, which the spec calls InvalidArgument. -/
inductive PLError where
  | invalidArgument : PLError
deriving DecidableEq, Repr

/-- One scalar cell of a spreadsheet row: a string or a number.  The source
writes the empty string `""` for an absent numeric value. -/
inductive Cell where
  | s : PyStr → Cell
  | n : ℚ → Cell
deriving DecidableEq, Repr

/-- Embedding of `calc_pl` (src/bot.py lines 80-89):

    def calc_pl(position, price_open, price_close):
        if price_open is None or price_close is None:
            return None, None
        pos = position.lower()
        if pos not in ("long", "short"):
            raise ValueError(...)
        gl = (price_close - price_open) if pos == "long" else (price_open - price_close)
        gl_pct = (gl / price_open) * 100 if price_open != 0 else 0.0
        return gl, gl_pct
-/
def calc_pl (position : PyStr) (price_open price_close : Option ℚ) :
    Except PLError (Option ℚ × Option ℚ) :=
  if price_open = none ∨ price_close = none then
    .ok (none, none)
  else
    let po := price_open.getD 0
    let pc := price_close.getD 0
    let pos := pyLower position
    if ¬ (pos = strLong ∨ pos = strShort) then
      .error .invalidArgument
    else
      let gl := if pos = strLong then pc - po else po - pc
      let gl_pct := if po ≠ 0 then (gl / po) * 100 else 0
      .ok (some gl, some gl_pct)

/-- The cell idiom of the source, an empty string when x is None else x: an
absent number is
written as the empty string. -/
def cellOrEmpty (x : Option ℚ) : Cell :=
  match x with
  | none => Cell.s []
  | some v => Cell.n v

/-- Embedding of `append_journal_row` (src/bot.py lines 91-114).  `ts` is
the formatted local timestamp obtained from the clock collaborator
(line 93-94); the returned list is the `row` handed to `ws.append_row`:

    ticker = ticker.upper().strip()
    position = position.lower().strip()
    if position not in ("long", "short"):
        raise ValueError(...)
    gl, gl_pct = calc_pl(position, price_open, price_close)
    row = [ts, user, str(message_id), ticker, position, price_open,
           ("" if price_close is None else price_close),
           ("" if gl is None else gl),
           ("" if gl_pct is None else gl_pct)]
    ws.append_row(row, ...)
-/
def append_journal_row (ts user : PyStr) (message_id : ℤ)
    (ticker position : PyStr) (price_open : ℚ) (price_close : Option ℚ) :
    Except PLError (List Cell) :=
  let ticker := pyStrip (pyUpper ticker)
  let position := pyStrip (pyLower position)
  if ¬ (position = strLong ∨ position = strShort) then
    .error .invalidArgument
  else
    match calc_pl position (some price_open) price_close with
    | .error e => .error e
    | .ok (gl, gl_pct) =>
      .ok [ Cell.s ts,
            Cell.s user,
            Cell.s (toString message_id).data,
            Cell.s ticker,
            Cell.s position,
            Cell.n price_open,
            cellOrEmpty price_close,
            cellOrEmpty gl,
            cellOrEmpty gl_pct ]

/-- The position-validity check `append_journal_row` performs on its raw
`position` argument before calling `calc_pl` (lines 97-99): `true` when it
rejects (raises). -/
def builderCheckRejects (position : PyStr) : Bool :=
  ¬ (pyStrip (pyLower position) = strLong ∨ pyStrip (pyLower position) = strShort)

/-- Whether `calc_pl` rejects (raises) on the given inputs. -/
def calcRejects (position : PyStr) (price_open price_close : Option ℚ) : Bool :=
  match calc_pl position price_open price_close with
  | .error _ => true
  | .ok _ => false

/-- The row produced for inputs ts = user = ticker = empty, message_id 0,
position long, price_open 100, price_close 110. -/
def rowEx110 : List Cell :=
  [Cell.s [], Cell.s [], Cell.s ['0'], Cell.s [], Cell.s strLong,
   Cell.n 100, Cell.n 110, Cell.n 10, Cell.n 10]

/-- The row produced for inputs ts = user = empty, message_id 0, the padded
example ticker and position, price_open 100, absent price_close. -/
def rowExNone : List Cell :=
  [Cell.s [], Cell.s [], Cell.s ['0'], Cell.s strEMTK, Cell.s strLong,
   Cell.n 100, Cell.s [], Cell.s [], Cell.s []]

end JournalBot

deriving instance DecidableEq for Except

namespace JournalBot

/-! Helper lemmas about the character and string operations. -/

/-- Packing a valid codepoint and unpacking it is the identity. -/
theorem toNat_ofNat_valid (n : Nat) (h : n.isValidChar) :
    (Char.ofNat n).toNat = n := by
  rw [Char.ofNat, dif_pos h]
  rfl

/-- Lower-casing a character twice is the same as lower-casing it once. -/
theorem char_toLower_toLower (c : Char) : c.toLower.toLower = c.toLower := by
  have key : ∀ d : Char, ¬ (d.toNat ≥ 65 ∧ d.toNat ≤ 90) → d.toLower = d := by
    intro d hd
    unfold Char.toLower
    rw [if_neg hd]
  by_cases h : c.toNat ≥ 65 ∧ c.toNat ≤ 90
  · have h1 : c.toLower = Char.ofNat (c.toNat + 32) := by
      unfold Char.toLower
      rw [if_pos h]
    have hv : (c.toNat + 32).isValidChar := Or.inl (by omega)
    have ht : c.toLower.toNat = c.toNat + 32 := by
      rw [h1, toNat_ofNat_valid _ hv]
    exact key _ (by omega)
  · rw [key c h]
    exact key c h

/-- Stripping keeps only characters of the original string. -/
theorem mem_of_mem_pyStrip {c : Char} {s : PyStr} (h : c ∈ pyStrip s) : c ∈ s := by
  unfold pyStrip at h
  rw [List.mem_reverse] at h
  have h2 := List.dropWhile_subset (l := (s.dropWhile Char.isWhitespace).reverse)
    Char.isWhitespace h
  rw [List.mem_reverse] at h2
  exact List.dropWhile_subset Char.isWhitespace h2

/-- Lower-casing is idempotent on strings. -/
theorem pyLower_pyStrip_pyLower (s : PyStr) :
    pyLower (pyStrip (pyLower s)) = pyStrip (pyLower s) := by
  have hmem : ∀ c ∈ pyStrip (pyLower s), Char.toLower c = c := by
    intro c hc
    have hc2 : c ∈ pyLower s := mem_of_mem_pyStrip hc
    obtain ⟨d, _, rfl⟩ := List.mem_map.1 hc2
    exact char_toLower_toLower d
  calc pyLower (pyStrip (pyLower s))
      = List.map (fun c => c) (pyStrip (pyLower s)) := List.map_congr_left hmem
    _ = pyStrip (pyLower s) := List.map_id' _

/-- The two valid-position literals are distinct. -/
theorem strLong_ne_strShort : strLong ≠ strShort := by decide

/-- The two valid-position literals are distinct. -/
theorem strShort_ne_strLong : strShort ≠ strLong := by decide

/-- Lower-casing fixes the literal long. -/
theorem pyLower_strLong : pyLower strLong = strLong := by decide

/-- Lower-casing fixes the literal short. -/
theorem pyLower_strShort : pyLower strShort = strShort := by decide

/-- Evaluation of `calc_pl` when both prices are present and the
lower-cased position is one of the two valid literals. -/
theorem calc_pl_valid (position : PyStr) (po pc : ℚ)
    (h : pyLower position = strLong ∨ pyLower position = strShort) :
    calc_pl position (some po) (some pc) =
      .ok (some (if pyLower position = strLong then pc - po else po - pc),
           some (if po ≠ 0 then
             (if pyLower position = strLong then pc - po else po - pc) / po * 100
           else 0)) := by
  rcases h with h | h <;>
    simp [calc_pl, h, strLong_ne_strShort, strShort_ne_strLong]

/-- Evaluation of `calc_pl` when both prices are present and the
lower-cased position is invalid. -/
theorem calc_pl_invalid (position : PyStr) (po pc : ℚ)
    (h1 : pyLower position ≠ strLong) (h2 : pyLower position ≠ strShort) :
    calc_pl position (some po) (some pc) = .error .invalidArgument := by
  simp [calc_pl, h1, h2]

/-- Evaluation of `calc_pl` when `price_close` is absent. -/
theorem calc_pl_close_absent (position : PyStr) (price_open : Option ℚ) :
    calc_pl position price_open none = .ok (none, none) := by
  simp [calc_pl]

/-- Evaluation of `calc_pl` when `price_open` is absent. -/
theorem calc_pl_open_absent (position : PyStr) (price_close : Option ℚ) :
    calc_pl position none price_close = .ok (none, none) := by
  simp [calc_pl]

/-- Characterization of a successful `append_journal_row`: the normalized
position is one of the two valid literals and the returned row is fully
determined by the inputs. -/
theorem append_journal_row_ok (ts user : PyStr) (mid : ℤ) (t p : PyStr)
    (po : ℚ) (pc : Option ℚ) (row : List Cell)
    (h : append_journal_row ts user mid t p po pc = .ok row) :
    (pyStrip (pyLower p) = strLong ∨ pyStrip (pyLower p) = strShort) ∧
    row = [Cell.s ts, Cell.s user, Cell.s (toString mid).data,
           Cell.s (pyStrip (pyUpper t)), Cell.s (pyStrip (pyLower p)), Cell.n po,
           cellOrEmpty pc,
           cellOrEmpty (pc.map fun v =>
             if pyStrip (pyLower p) = strLong then v - po else po - v),
           cellOrEmpty (pc.map fun v =>
             if po ≠ 0 then
               (if pyStrip (pyLower p) = strLong then v - po else po - v) / po * 100
             else 0)] := by
  by_cases hv : pyStrip (pyLower p) = strLong ∨ pyStrip (pyLower p) = strShort
  · refine ⟨hv, ?_⟩
    cases pc with
    | none =>
      rw [append_journal_row, if_neg (not_not_intro hv),
        calc_pl_close_absent] at h
      simp only [Except.ok.injEq] at h
      simp [h.symm, cellOrEmpty]
    | some v =>
      have hlow : pyLower (pyStrip (pyLower p)) = strLong ∨
          pyLower (pyStrip (pyLower p)) = strShort := by
        rw [pyLower_pyStrip_pyLower]
        exact hv
      rw [append_journal_row, if_neg (not_not_intro hv),
        calc_pl_valid _ _ _ hlow] at h
      rw [pyLower_pyStrip_pyLower] at h
      simp only [Except.ok.injEq] at h
      simp [h.symm, cellOrEmpty]
  · rw [append_journal_row, if_pos hv] at h
    exact absurd h (by simp)

/-- Any position string normalizing to long makes `append_journal_row`
succeed, with stored position long and the long-side P/L in the row. -/
theorem append_long_succeeds (ts user : PyStr) (mid : ℤ) (t q : PyStr)
    (po : ℚ) (pc : Option ℚ) (hq : pyStrip (pyLower q) = strLong) :
    append_journal_row ts user mid t q po pc =
      .ok [Cell.s ts, Cell.s user, Cell.s (toString mid).data,
           Cell.s (pyStrip (pyUpper t)), Cell.s strLong, Cell.n po,
           cellOrEmpty pc,
           cellOrEmpty (pc.map fun v => v - po),
           cellOrEmpty (pc.map fun v =>
             if po ≠ 0 then (v - po) / po * 100 else 0)] := by
  rw [append_journal_row, hq, if_neg (not_not_intro (Or.inl rfl))]
  cases pc with
  | none =>
    rw [calc_pl_close_absent]
    rfl
  | some v =>
    rw [calc_pl_valid _ _ _ (Or.inl pyLower_strLong)]
    simp [pyLower_strLong]

/-! The claims. -/

/-- Claim C9: when `price_open` is absent (None), `calc_pl` returns
(absent, absent) for every position string and every `price_close`,
raising no error. -/
theorem claim_C9_open_absent (p : PyStr) (c : Option ℚ) :
    calc_pl p none c = .ok (none, none) :=
  calc_pl_open_absent p c

/-- Claim C8: `calc_pl` is deterministic — two calls with equal position
and prices return equal results — and side-effect free: it is a pure
function of its three arguments. -/
theorem claim_C8_deterministic (p1 p2 : PyStr) (o1 o2 c1 c2 : Option ℚ)
    (hp : p1 = p2) (ho : o1 = o2) (hc : c1 = c2) :
    calc_pl p1 o1 c1 = calc_pl p2 o2 c2 := by
  rw [hp, ho, hc]

/-- Claim C8 witness: the determinism theorem applied at a concrete
input. -/
theorem claim_C8_deterministic_witness :
    strLong = strLong ∧ some (100 : ℚ) = some 100 ∧ some (110 : ℚ) = some 110 ∧
    calc_pl strLong (some 100) (some 110) = calc_pl strLong (some 100) (some 110) :=
  ⟨rfl, rfl, rfl,
   claim_C8_deterministic strLong strLong (some 100) (some 100)
     (some 110) (some 110) rfl rfl rfl⟩

/-- Claim C3: for every `price_open` and present `price_close`, `calc_pl`
returns gain_loss = price_close − price_open for position long and
gain_loss = price_open − price_close for position short. -/
theorem claim_C3_gain_loss (po pc : ℚ) :
    (calc_pl strLong (some po) (some pc)).map Prod.fst = .ok (some (pc - po)) ∧
    (calc_pl strShort (some po) (some pc)).map Prod.fst = .ok (some (po - pc)) := by
  rw [calc_pl_valid strLong po pc (Or.inl pyLower_strLong),
    calc_pl_valid strShort po pc (Or.inr pyLower_strShort)]
  simp [Except.map, pyLower_strLong, pyLower_strShort, strShort_ne_strLong]

/-- Claim C4: for every valid position and present `price_close`, the
returned gain_loss_percent is gain_loss / price_open × 100 whenever
price_open ≠ 0, and exactly 0 whenever price_open = 0, as a defined
result rather than an error. -/
theorem claim_C4_percent (p : PyStr) (po pc : ℚ)
    (h : pyLower p = strLong ∨ pyLower p = strShort) :
    ∃ gl glp : ℚ, calc_pl p (some po) (some pc) = .ok (some gl, some glp) ∧
      (po ≠ 0 → glp = gl / po * 100) ∧ (po = 0 → glp = 0) := by
  refine ⟨_, _, calc_pl_valid p po pc h, ?_, ?_⟩
  · intro hpo
    rw [if_pos hpo]
  · intro hpo
    rw [if_neg (not_not_intro hpo)]

/-- Claim C1 counterexample: the position neutral is not a case-insensitive
match of long or short, yet with price_close absent `calc_pl` returns
(absent, absent) instead of failing with InvalidArgument. -/
theorem claim_C1_counterexample :
    calc_pl strNeutral (some 100) none = .ok (none, none) := by
  decide

/-- Claim C1 (amended): for every position string whose lower-cased and
trimmed form is not long or short, `append_journal_row` fails with
InvalidArgument for every combination of prices; `calc_pl` fails with
InvalidArgument for every position string whose lower-cased (untrimmed)
form is not long or short whenever both prices are present, but returns
(absent, absent) without error whenever either price is absent. -/
theorem claim_C1_invalid_position (ts user : PyStr) (mid : ℤ) (t p : PyStr)
    (po pc : ℚ) (c : Option ℚ) :
    ((pyStrip (pyLower p) ≠ strLong ∧ pyStrip (pyLower p) ≠ strShort) →
      append_journal_row ts user mid t p po c = .error .invalidArgument) ∧
    ((pyLower p ≠ strLong ∧ pyLower p ≠ strShort) →
      calc_pl p (some po) (some pc) = .error .invalidArgument ∧
      calc_pl p (some po) none = .ok (none, none) ∧
      calc_pl p none c = .ok (none, none)) := by
  constructor
  · rintro ⟨h1, h2⟩
    rw [append_journal_row, if_pos (not_or.mpr ⟨h1, h2⟩)]
  · rintro ⟨h1, h2⟩
    exact ⟨calc_pl_invalid p po pc h1 h2, calc_pl_close_absent p _,
      calc_pl_open_absent p c⟩

/-- Claim C1 witness: the amended theorem applied at position neutral. -/
theorem claim_C1_invalid_position_witness :
    (pyStrip (pyLower strNeutral) ≠ strLong ∧
      pyStrip (pyLower strNeutral) ≠ strShort) ∧
    (pyLower strNeutral ≠ strLong ∧ pyLower strNeutral ≠ strShort) ∧
    append_journal_row [] [] 0 [] strNeutral 100 (some 90) =
      .error .invalidArgument ∧
    (calc_pl strNeutral (some 100) (some 90) = .error .invalidArgument ∧
     calc_pl strNeutral (some 100) none = .ok (none, none) ∧
     calc_pl strNeutral none (some 90) = .ok (none, none)) :=
  ⟨by decide, by decide,
   (claim_C1_invalid_position [] [] 0 [] strNeutral 100 90 (some 90)).1
     (by decide),
   (claim_C1_invalid_position [] [] 0 [] strNeutral 100 90 (some 90)).2
     (by decide)⟩

/-- Claim C2 counterexample: at position neutral with price_open 100 and
price_close absent, the builder check rejects but `calc_pl` does not, so
the two checks do not agree on every position string and every pair of
prices. -/
theorem claim_C2_counterexample :
    ¬ (builderCheckRejects strNeutral = true ↔
        calcRejects strNeutral (some 100) none = true) := by
  decide

/-- Claim C2 (amended): for every position string, when both prices are
present, the builder check on the raw string rejects exactly when
`calc_pl` rejects the normalized (lower-cased, trimmed) position that the
builder passes to it; when either price is absent `calc_pl` performs no
check and never rejects. -/
theorem claim_C2_checks_agree (p : PyStr) (po pc : ℚ) (c : Option ℚ) :
    (builderCheckRejects p = true ↔
      calcRejects (pyStrip (pyLower p)) (some po) (some pc) = true) ∧
    calcRejects (pyStrip (pyLower p)) (some po) none = false ∧
    calcRejects (pyStrip (pyLower p)) none c = false := by
  refine ⟨?_, ?_, ?_⟩
  · by_cases hv : pyStrip (pyLower p) = strLong ∨ pyStrip (pyLower p) = strShort
    · have hlow : pyLower (pyStrip (pyLower p)) = strLong ∨
          pyLower (pyStrip (pyLower p)) = strShort := by
        rw [pyLower_pyStrip_pyLower]
        exact hv
      simp [builderCheckRejects, hv, calcRejects, calc_pl_valid _ po pc hlow]
    · rw [not_or] at hv
      have hlow1 : pyLower (pyStrip (pyLower p)) ≠ strLong := by
        rw [pyLower_pyStrip_pyLower]
        exact hv.1
      have hlow2 : pyLower (pyStrip (pyLower p)) ≠ strShort := by
        rw [pyLower_pyStrip_pyLower]
        exact hv.2
      simp [builderCheckRejects, hv.1, hv.2, calcRejects,
        calc_pl_invalid _ po pc hlow1 hlow2]
  · simp [calcRejects, calc_pl_close_absent]
  · simp [calcRejects, calc_pl_open_absent]

/-- Claim C4 witness: the percentage theorem applied at position long,
price_open 100, price_close 110. -/
theorem claim_C4_percent_witness :
    (pyLower strLong = strLong ∨ pyLower strLong = strShort) ∧
    (∃ gl glp : ℚ,
      calc_pl strLong (some 100) (some 110) = .ok (some gl, some glp) ∧
      ((100 : ℚ) ≠ 0 → glp = gl / 100 * 100) ∧ ((100 : ℚ) = 0 → glp = 0)) :=
  ⟨Or.inl pyLower_strLong,
   claim_C4_percent strLong 100 110 (Or.inl pyLower_strLong)⟩

/-- Claim C5: in every row produced, the gain_loss and gain_loss_percent
cells are numeric together or empty together, and they are empty exactly
when price_close is absent; moreover `calc_pl` returns (absent, absent)
for an absent price_close regardless of the other inputs. -/
theorem claim_C5_presence (ts user : PyStr) (mid : ℤ) (t p : PyStr)
    (po : ℚ) (pc : Option ℚ) (row : List Cell)
    (h : append_journal_row ts user mid t p po pc = .ok row) :
    ((∃ a : ℚ, row[7]? = some (Cell.n a)) ↔
      (∃ b : ℚ, row[8]? = some (Cell.n b))) ∧
    ((row[7]? = some (Cell.s []) ∧ row[8]? = some (Cell.s [])) ↔ pc = none) ∧
    (∀ (q : PyStr) (o : Option ℚ), calc_pl q o none = .ok (none, none)) := by
  obtain ⟨hv, hrow⟩ := append_journal_row_ok ts user mid t p po pc row h
  subst hrow
  refine ⟨?_, ?_, fun q o => calc_pl_close_absent q o⟩ <;>
    cases pc <;> simp [cellOrEmpty]

/-- Claim C5 witness: the presence theorem applied at a concrete closed
trade. -/
theorem claim_C5_presence_witness :
    append_journal_row [] [] 0 [] strLong 100 (some 110) = .ok rowEx110 ∧
    (((∃ a : ℚ, rowEx110[7]? = some (Cell.n a)) ↔
       (∃ b : ℚ, rowEx110[8]? = some (Cell.n b))) ∧
     ((rowEx110[7]? = some (Cell.s []) ∧ rowEx110[8]? = some (Cell.s [])) ↔
       some (110 : ℚ) = none) ∧
     (∀ (q : PyStr) (o : Option ℚ), calc_pl q o none = .ok (none, none))) :=
  have h : append_journal_row [] [] 0 [] strLong 100 (some 110) =
      .ok rowEx110 := by
    rw [append_long_succeeds [] [] 0 [] strLong 100 (some 110) (by decide)]
    simp only [Option.map_some, cellOrEmpty, rowEx110]
    norm_num
    exact ⟨rfl, rfl⟩
  ⟨h, claim_C5_presence [] [] 0 [] strLong 100 (some 110) rowEx110 h⟩

/-- Claim C6: the stored ticker is the input upper-cased and stripped of
surrounding whitespace, the stored position is the input lower-cased and
stripped, the padded example ticker normalizes to EMTK, and the two
example positions Long-with-spaces and LONG both succeed and store long. -/
theorem claim_C6_normalization (ts user : PyStr) (mid : ℤ) (t p : PyStr)
    (po : ℚ) (pc : Option ℚ) (row : List Cell)
    (h : append_journal_row ts user mid t p po pc = .ok row) :
    row[3]? = some (Cell.s (pyStrip (pyUpper t))) ∧
    row[4]? = some (Cell.s (pyStrip (pyLower p))) ∧
    pyStrip (pyUpper strEmtkPadded) = strEMTK ∧
    (∃ r1 : List Cell,
      append_journal_row ts user mid t strLongPadded po pc = .ok r1 ∧
      r1[4]? = some (Cell.s strLong)) ∧
    (∃ r2 : List Cell,
      append_journal_row ts user mid t strLONG po pc = .ok r2 ∧
      r2[4]? = some (Cell.s strLong)) := by
  obtain ⟨hv, hrow⟩ := append_journal_row_ok ts user mid t p po pc row h
  subst hrow
  refine ⟨by simp, by simp, by decide, ?_, ?_⟩
  · exact ⟨_, append_long_succeeds ts user mid t strLongPadded po pc
      (by decide), by simp⟩
  · exact ⟨_, append_long_succeeds ts user mid t strLONG po pc
      (by decide), by simp⟩

/-- Claim C6 witness: the normalization theorem applied at the example
inputs of the spec. -/
theorem claim_C6_normalization_witness :
    append_journal_row [] [] 0 strEmtkPadded strLongPadded 100 none =
      .ok rowExNone ∧
    (rowExNone[3]? = some (Cell.s (pyStrip (pyUpper strEmtkPadded))) ∧
     rowExNone[4]? = some (Cell.s (pyStrip (pyLower strLongPadded))) ∧
     pyStrip (pyUpper strEmtkPadded) = strEMTK ∧
     (∃ r1 : List Cell,
       append_journal_row [] [] 0 strEmtkPadded strLongPadded 100 none =
         .ok r1 ∧ r1[4]? = some (Cell.s strLong)) ∧
     (∃ r2 : List Cell,
       append_journal_row [] [] 0 strEmtkPadded strLONG 100 none =
         .ok r2 ∧ r2[4]? = some (Cell.s strLong))) :=
  ⟨by decide,
   claim_C6_normalization [] [] 0 strEmtkPadded strLongPadded 100 none
     rowExNone (by decide)⟩

/-- Claim C7: every successful invocation hands the store exactly 9 scalar
cells in the JournalEntry field order — timestamp, user, message_id,
ticker, position, price_open, price_close, gain_loss,
gain_loss_percent — with message_id stringified. -/
theorem claim_C7_row_shape (ts user : PyStr) (mid : ℤ) (t p : PyStr)
    (po : ℚ) (pc : Option ℚ) (row : List Cell)
    (h : append_journal_row ts user mid t p po pc = .ok row) :
    row.length = 9 ∧
    ∃ gl glp : Option ℚ,
      calc_pl (pyStrip (pyLower p)) (some po) pc = .ok (gl, glp) ∧
      row = [Cell.s ts, Cell.s user, Cell.s (toString mid).data,
             Cell.s (pyStrip (pyUpper t)), Cell.s (pyStrip (pyLower p)),
             Cell.n po, cellOrEmpty pc, cellOrEmpty gl, cellOrEmpty glp] := by
  obtain ⟨hv, hrow⟩ := append_journal_row_ok ts user mid t p po pc row h
  subst hrow
  have hlow : pyLower (pyStrip (pyLower p)) = strLong ∨
      pyLower (pyStrip (pyLower p)) = strShort := by
    rw [pyLower_pyStrip_pyLower]
    exact hv
  refine ⟨rfl,
    pc.map (fun v => if pyStrip (pyLower p) = strLong then v - po else po - v),
    pc.map (fun v => if po ≠ 0 then
      (if pyStrip (pyLower p) = strLong then v - po else po - v) / po * 100
    else 0),
    ?_, rfl⟩
  cases pc with
  | none =>
    rw [calc_pl_close_absent]
    rfl
  | some v =>
    rw [calc_pl_valid _ _ _ hlow, pyLower_pyStrip_pyLower]
    simp

/-- Claim C7 witness: the row-shape theorem applied at a concrete closed
trade. -/
theorem claim_C7_row_shape_witness :
    append_journal_row [] [] 0 [] strLong 100 (some 110) = .ok rowEx110 ∧
    (rowEx110.length = 9 ∧
     ∃ gl glp : Option ℚ,
       calc_pl (pyStrip (pyLower strLong)) (some 100) (some 110) =
         .ok (gl, glp) ∧
       rowEx110 = [Cell.s [], Cell.s [], Cell.s (toString (0 : ℤ)).data,
         Cell.s (pyStrip (pyUpper [])), Cell.s (pyStrip (pyLower strLong)),
         Cell.n 100, cellOrEmpty (some 110), cellOrEmpty gl,
         cellOrEmpty glp]) :=
  have h : append_journal_row [] [] 0 [] strLong 100 (some 110) =
      .ok rowEx110 := by
    rw [append_long_succeeds [] [] 0 [] strLong 100 (some 110) (by decide)]
    simp only [Option.map_some, cellOrEmpty, rowEx110]
    norm_num
    exact ⟨rfl, rfl⟩
  ⟨h, claim_C7_row_shape [] [] 0 [] strLong 100 (some 110) rowEx110 h⟩

/-- Claim C10: on the same prices, the gain_loss for short is the negation
of the gain_loss for long, and when price_open ≠ 0 the same negation holds
for gain_loss_percent. -/
theorem claim_C10_negation (po pc gl glp gs gsp : ℚ)
    (hl : calc_pl strLong (some po) (some pc) = .ok (some gl, some glp))
    (hs : calc_pl strShort (some po) (some pc) = .ok (some gs, some gsp)) :
    gs = -gl ∧ (po ≠ 0 → gsp = -glp) := by
  rw [calc_pl_valid strLong po pc (Or.inl pyLower_strLong), pyLower_strLong,
    if_pos rfl] at hl
  rw [calc_pl_valid strShort po pc (Or.inr pyLower_strShort), pyLower_strShort,
    if_neg strShort_ne_strLong] at hs
  simp only [Except.ok.injEq, Prod.mk.injEq, Option.some.injEq] at hl hs
  obtain ⟨hl1, hl2⟩ := hl
  obtain ⟨hs1, hs2⟩ := hs
  constructor
  · rw [← hl1, ← hs1]
    ring
  · intro hpo
    rw [← hl2, ← hs2, if_pos hpo, if_pos hpo]
    ring

/-- Claim C10 witness: the negation theorem applied at price_open 100,
price_close 110. -/
theorem claim_C10_negation_witness :
    calc_pl strLong (some 100) (some 110) = .ok (some 10, some 10) ∧
    calc_pl strShort (some 100) (some 110) = .ok (some (-10), some (-10)) ∧
    ((-10 : ℚ) = -10 ∧ ((100 : ℚ) ≠ 0 → (-10 : ℚ) = -10)) :=
  have hl : calc_pl strLong (some 100) (some 110) = .ok (some 10, some 10) := by
    rw [calc_pl_valid strLong 100 110 (Or.inl pyLower_strLong),
      pyLower_strLong, if_pos rfl]
    norm_num
  have hs : calc_pl strShort (some 100) (some 110) =
      .ok (some (-10), some (-10)) := by
    rw [calc_pl_valid strShort 100 110 (Or.inr pyLower_strShort),
      pyLower_strShort, if_neg strShort_ne_strLong]
    norm_num
  ⟨hl, hs, claim_C10_negation 100 110 10 10 (-10) (-10) hl hs⟩

end JournalBot
